import Mathlib

/-!
Verification of the varc volatile-acquisition core
(`varc_core/systems/base_system.py` and `varc_core/systems/linux.py`)
against its natural-language specification.

The Python code is shallowly embedded: every external effect (the
`/proc/<pid>/maps` file, the `process_vm_readv` syscall, `psutil`,
the filesystem, the screen grabber) is passed in as explicit data or
as an oracle function, and exceptions are modelled with
`Except`/`Option` results.  Each definition mirrors one Python
function and is annotated with the source lines it embeds.
-/

/-! ## Memory Map Parser (`linux.py`, `LinuxSystem.parse_mem_map`, lines 47-70) -/

/-- One character of the class `[a-fA-F0-9]` of the line regex in
`parse_mem_map` (linux.py line 58). -/
def isHexDig (c : Char) : Bool :=
  (decide (48 ≤ c.toNat) && decide (c.toNat ≤ 57)) ||
  (decide (97 ≤ c.toNat) && decide (c.toNat ≤ 102)) ||
  (decide (65 ≤ c.toNat) && decide (c.toNat ≤ 70))

/-- Value of a single hex digit, as `int(_, 16)` assigns it
(linux.py lines 60-61). -/
def hexVal (c : Char) : Nat :=
  if c.toNat ≤ 57 then c.toNat - 48
  else if c.toNat ≤ 70 then c.toNat - 55
  else c.toNat - 87

/-- `int(digits, 16)` on a nonempty hex-digit string
(linux.py lines 60-61). -/
def hexNum (cs : List Char) : Nat :=
  cs.foldl (fun a c => 16 * a + hexVal c) 0

/-- The `\s` class of the line regex, restricted to ASCII: space, tab,
LF, VT, FF, CR.  The kernel-produced maps lines are ASCII, so the
unicode part of `\s` is never exercised. -/
def isSpaceChar (c : Char) : Bool :=
  decide (c.toNat = 32) || decide (c.toNat = 9) || decide (c.toNat = 10) ||
  decide (c.toNat = 11) || decide (c.toNat = 12) || decide (c.toNat = 13)

/-- `re.match(r"([a-fA-F0-9]+)-([a-fA-F0-9]+)\s(r|-)", line)`
(linux.py line 58), returning the two parsed addresses and whether
group 3 was the character r.

Backtracking never helps this pattern: a hex digit is neither the
literal dash nor a `\s` character, so each greedy `+` group is exactly
the maximal hex-digit run.  The embedding therefore parses
deterministically: maximal hex run, a dash, maximal hex run, one
whitespace character, then the permission character r or dash; the
rest of the line is ignored, as `re.match` only anchors the prefix. -/
def lineMatch (line : String) : Option (Nat × Nat × Bool) :=
  let cs := line.toList
  let h1 := cs.takeWhile isHexDig
  if h1.isEmpty then none else
  match cs.dropWhile isHexDig with
  | '-' :: r2 =>
    let h2 := r2.takeWhile isHexDig
    if h2.isEmpty then none else
    match r2.dropWhile isHexDig with
    | c :: f :: _ =>
      if isSpaceChar c then
        if f = 'r' then some (hexNum h1, hexNum h2, true)
        else if f = '-' then some (hexNum h1, hexNum h2, false)
        else none
      else none
    | _ => none
  | _ => none

/-- The three ways the `/proc/<pid>/maps` read can go in
`parse_mem_map`: the open raises `FileNotFoundError`, it raises
`PermissionError`, or it yields the lines of the record. -/
inductive MapsFile
  | absent
  | denied
  | content (lines : List String)

/-- The `for line in map_content` loop of `parse_mem_map`
(linux.py lines 57-62).  On a line the regex does not match,
`re.match` returns `None` and `line_groups.group(3)` raises
`AttributeError`, which no `except` clause of the function catches:
the loop is abandoned and the exception propagates (`Except.error`).
On a matched line the `(start, end)` pair is appended exactly when
group 3 is r. -/
def parseLines : List String → List (Nat × Nat) → Except Unit (List (Nat × Nat))
  | [], acc => Except.ok acc
  | l :: ls, acc =>
    match lineMatch l with
    | none => Except.error ()
    | some (s, e, b) => parseLines ls (if b then acc ++ [(s, e)] else acc)

/-- `LinuxSystem.parse_mem_map` (linux.py lines 47-70).
`FileNotFoundError` and `PermissionError` are caught and the
(still empty) accumulator is returned; an `AttributeError` from an
unmatched line propagates. -/
def parse_mem_map : MapsFile → Except Unit (List (Nat × Nat))
  | MapsFile.absent => Except.ok []
  | MapsFile.denied => Except.ok []
  | MapsFile.content lines => parseLines lines []

/-! ## Region Reader (`linux.py`, `LinuxSystem.read_bytes`, lines 72-92) -/

/-- `LinuxSystem.read_bytes` (linux.py lines 72-92).  `sys` is the
`process_vm_readv` syscall result oracle and `mem` the buffer contents
the kernel deposits.  A syscall result of -1 is reported as `none`
(the Python function returns `None`); otherwise the raw buffer is
returned.  The function raises nothing on a failed read. -/
def read_bytes (sys : Nat → Nat → Nat → Int) (mem : Nat → Nat → Nat → List Nat)
    (pid addr len : Nat) : Option (List Nat) :=
  if sys pid addr len = -1 then none else some (mem pid addr len)

/-! ## Process Dump Builder (`linux.py`, `LinuxSystem.dump_processes`, lines 94-121) -/

/-- The per-process region loop of `dump_processes`
(linux.py lines 106-111).  Returns the list of `(start, length)` read
attempts together with the bytes accumulated in the temp file.
`page_len = map[1] - map[0]` is negative when `end < start`; then
`ctypes.create_string_buffer` inside `read_bytes` raises `ValueError`,
which no `except` clause catches (`Except.error`).  A chunk is written
to the temp file only when `mem_page_content` is truthy, i.e. the read
returned a nonempty byte string. -/
def dump_regions (read : Nat → Nat → Option (List Nat)) :
    List (Nat × Nat) → Except Unit (List (Nat × Nat) × List Nat)
  | [] => Except.ok ([], [])
  | (s, e) :: ms =>
    if e < s then Except.error ()
    else
      let len := e - s
      let chunk : List Nat :=
        match read s len with
        | some bs => if bs.isEmpty then [] else bs
        | none => []
      match dump_regions read ms with
      | Except.error u => Except.error u
      | Except.ok (as_, sink) => Except.ok ((s, len) :: as_, chunk ++ sink)

/-- One iteration of the `for proc in ...` loop of `dump_processes`
(linux.py lines 98-118) for a single process: parse the maps record;
`if not maps: continue` yields no archive entry (`Except.ok none`);
otherwise read every region into the temp file and then
unconditionally commit the temp file as the archive entry
`process_dumps/<name>_<pid>.mem` (linux.py line 112) — the commit is
not guarded by the temp file being nonempty. -/
def dump_process (read : Nat → Nat → Option (List Nat)) (pid : Nat) (pname : String)
    (mapsFile : MapsFile) : Except Unit (Option (String × List Nat)) :=
  match parse_mem_map mapsFile with
  | Except.error u => Except.error u
  | Except.ok maps =>
    if maps.isEmpty then Except.ok none
    else
      match dump_regions read maps with
      | Except.error u => Except.error u
      | Except.ok (_, sink) =>
        Except.ok (some ("process_dumps/" ++ pname ++ "_" ++ Nat.repr pid ++ ".mem", sink))

/-! ## Base system (`base_system.py`) -/

/-- Python truthiness of an optional string (used by
`if self.process_name ...`, base_system.py lines 58, 89):
`None` and the empty string are falsy. -/
def truthyStr : Option String → Bool
  | none => false
  | some s => decide (s ≠ "")

/-- Python truthiness of an optional integer (used by
`if self.process_id ...`, base_system.py lines 58, 87):
`None` and 0 are falsy. -/
def truthyNat : Option Nat → Bool
  | none => false
  | some n => decide (n ≠ 0)

/-- Python truthiness of optional bytes (used by
`if mem_page_content:` and `if screenshot:`):
`None` and empty bytes are falsy. -/
def truthyBytes : Option (List Nat) → Bool
  | none => false
  | some bs => !bs.isEmpty

/-- The fields of a `psutil` process `as_dict()` that
`dump_loaded_files` and `get_processes_dict` consume.  `exe` is the
executable path string, the empty string when unknown. -/
structure ProcDict where
  pid : Nat
  name : String
  open_files : List String
  memory_maps : List String
  exe : String
deriving DecidableEq

/-- `BaseSystem.get_processes_dict` (base_system.py lines 82-97).
With a truthy `process_id`, `psutil.Process(self.process_id)` either
resolves the pid or raises `psutil.NoSuchProcess` (`Except.error`);
with a truthy `process_name` the inventory is filtered by
case-insensitive name; otherwise every process is returned. -/
def get_processes_dict (name : Option String) (pid : Option Nat)
    (procs : List ProcDict) : Except Unit (List ProcDict) :=
  if truthyNat pid then
    match procs.find? (fun p => decide (p.pid = pid.getD 0)) with
    | some p => Except.ok [p]
    | none => Except.error ()
  else if truthyStr name then
    Except.ok (procs.filter (fun p => p.name.toLower == (name.getD "").toLower))
  else Except.ok procs

/-- The `open_files` accumulation of `dump_loaded_files`
(base_system.py lines 112-114), including the truthiness guard. -/
def openFilesOf (procs : List ProcDict) : List String :=
  procs.foldl (fun acc p => if p.open_files.isEmpty then acc else acc ++ p.open_files) []

/-- The `memory_maps` accumulation of `dump_loaded_files`
(base_system.py lines 115-117). -/
def mappedOf (procs : List ProcDict) : List String :=
  procs.foldl (fun acc p => if p.memory_maps.isEmpty then acc else acc ++ p.memory_maps) []

/-- The `exe_paths` accumulation of `dump_loaded_files`
(base_system.py lines 118-120).  `exe_paths += proc_exe` extends a
list by a STRING, so each CHARACTER of the executable path is appended
as its own one-character string. -/
def exeCharsOf (procs : List ProcDict) : List String :=
  procs.foldl
    (fun acc p => if p.exe = "" then acc else acc ++ p.exe.toList.map (fun c => String.mk [c])) []

/-- `paths = list(set(open_files + mapped_filepaths + exe_paths))`
(base_system.py line 123).  A Python set iterates in an unspecified
order; `List.dedup` is the canonical choice — the claims depend only
on membership and duplicate-freedom, which any order satisfies. -/
def gatherPaths (procs : List ProcDict) : List String :=
  (openFilesOf procs ++ mappedOf procs ++ exeCharsOf procs).dedup

/-- `os.path.exists(path) and os.path.getsize(path)`
(base_system.py line 125): the filesystem oracle `fs` gives the size
of an existing path, `none` for a missing one; a size of 0 is falsy. -/
def sizeOk (fs : String → Option Nat) (p : String) : Bool :=
  match fs p with
  | some n => decide (n ≠ 0)
  | none => false

/-- `BaseSystem.dump_loaded_files` (base_system.py lines 99-125),
specialised to an already-selected process list (the function itself
calls `get_processes_dict`; its callers thread the same selection). -/
def dump_loaded_files (procs : List ProcDict) (fs : String → Option Nat) : List String :=
  (gatherPaths procs).filter (fun p => decide (p.length > 1) && sizeOk fs p)

/-- `_MAX_OPEN_FILE_SIZE` (base_system.py line 27). -/
def MAX_OPEN_FILE_SIZE : Nat := 10000000

/-- The open-file copy loop of `acquire_volatile`
(base_system.py lines 235-247): a vanished file
(`FileNotFoundError` from `getsize`) is skipped, a file larger than
`_MAX_OPEN_FILE_SIZE` is skipped, and a `PermissionError` while
copying (modelled by the `copyOk` oracle) is skipped; every other
candidate is written into the archive. -/
def copiedFiles (fs : String → Option Nat) (copyOk : String → Bool)
    (files : List String) : List String :=
  files.filter (fun p =>
    match fs p with
    | none => false
    | some n => if MAX_OPEN_FILE_SIZE < n then false else copyOk p)

/-- One endpoint of a `psutil` connection (`conn.laddr` / `conn.raddr`). -/
structure Endpoint where
  ip : String
  port : Nat
deriving DecidableEq

/-- One `psutil.net_connections()` entry as `get_network` reads it:
the two optional endpoints (an empty tuple is falsy in Python) and
the owning pid. -/
structure NetConn where
  laddr : Option Endpoint
  raddr : Option Endpoint
  pid : Nat
deriving DecidableEq

/-- The network-introspection environment of `get_network`:
`connections` is the `psutil.net_connections()` outcome
(`Except.error` = `psutil.AccessDenied`), `nameOf` the
`psutil.Process(conn.pid).name()` lookup (`none` =
`psutil.NoSuchProcess` raised), and `date` the formatted syslog
timestamp. -/
structure NetEnv where
  connections : Except Unit (List NetConn)
  nameOf : Nat → Option String
  date : String

/-- One netstat log line (base_system.py line 78). -/
def fmtLine (date ip1 : String) (p1 : Nat) (ip2 : String) (p2 : Nat) (nm : String) : String :=
  date ++ " " ++ ip1 ++ " " ++ Nat.repr p1 ++ " " ++ ip2 ++ " " ++ Nat.repr p2 ++ " " ++ nm

/-- The `for conn in connections` loop of `get_network`
(base_system.py lines 74-79).  A connection missing either endpoint is
skipped.  For a qualifying connection the process-name lookup is NOT
guarded: a `psutil.NoSuchProcess` raised by `psutil.Process(conn.pid)`
propagates out of the loop (`Except.error`). -/
def netLines (nameOf : Nat → Option String) (date : String) :
    List NetConn → Except Unit (List String)
  | [] => Except.ok []
  | c :: cs =>
    match c.laddr, c.raddr with
    | some la, some ra =>
      match nameOf c.pid with
      | none => Except.error ()
      | some nm =>
        match netLines nameOf date cs with
        | Except.error u => Except.error u
        | Except.ok rest => Except.ok (fmtLine date la.ip la.port ra.ip ra.port nm :: rest)
    | _, _ => netLines nameOf date cs

/-- `BaseSystem.get_network` (base_system.py lines 62-80).
`psutil.AccessDenied` from the enumeration itself is caught and
logged, leaving `connections = []`, so the function returns an empty
list; a per-connection `NoSuchProcess` propagates. -/
def get_network (env : NetEnv) : Except Unit (List String) :=
  let conns :=
    match env.connections with
    | Except.error _ => []
    | Except.ok cs => cs
  netLines env.nameOf env.date conns

/-- The constructor parameters of `BaseSystem.__init__`
(base_system.py lines 40-48). -/
structure InitParams where
  process_name : Option String
  process_id : Option Nat
  take_screenshot : Bool
  include_memory : Bool
  include_open : Bool
  extract_dumps : Bool

/-- The instance attributes `__init__` actually assigns
(base_system.py lines 49-56).  The `take_screenshot` parameter is NOT
among them: it is never stored on the instance. -/
structure SystemState where
  process_name : Option String
  process_id : Option Nat
  extract_dumps : Bool
  include_memory : Bool
  include_open : Bool

/-- The attribute assignments of `__init__`
(base_system.py lines 49-56): the `take_screenshot` parameter is
dropped. -/
def initState (p : InitParams) : SystemState :=
  { process_name := p.process_name
    process_id := p.process_id
    extract_dumps := p.extract_dumps
    include_memory := p.include_memory
    include_open := p.include_open }

/-- `if self.process_name and self.process_id:`
(base_system.py line 58): the guard of the `ValueError`. -/
def init_validation_fails (name : Option String) (pid : Option Nat) : Bool :=
  truthyStr name && truthyNat pid

/-- `if self.take_screenshot:` (base_system.py line 216).
Because `__init__` never assigns an instance attribute named
`take_screenshot`, the lookup falls through to the class attribute,
which is the bound method `BaseSystem.take_screenshot` — always a
truthy object.  The guard is therefore constantly true, whatever
configuration was passed. -/
def screenshotGuard (_ : SystemState) : Bool := true

/-- One entry written into the output archive by `acquire_volatile`. -/
inductive Entry
  | screenshotPng (machine timestamp : String)
  | processesJson
  | openFilesJson
  | netstatLog
  | fileCopy (path : String)
deriving DecidableEq

/-- The archive entry names the code uses (base_system.py lines
227-243).  A copied file keeps its path, transformed by
`strip_drive` — a pure rename whose source
(`varc_core/utils/string_manips.py`) is outside the embedded files and
which no claim depends on. -/
def Entry.entryName : Entry → String
  | Entry.screenshotPng m t => m ++ "-" ++ t ++ ".png"
  | Entry.processesJson => "processes.json"
  | Entry.openFilesJson => "open_files.json"
  | Entry.netstatLog => "netstat.log"
  | Entry.fileCopy p => p

/-- The world `acquire_volatile` runs against: the process inventory,
the network environment, the filesystem size oracle, the
screen-capture outcome (`none` = `ScreenShotError`, caught inside
`take_screenshot` which then returns `None`), the copy-permission
oracle, and the machine name / timestamp used in entry names. -/
structure AcquireEnv where
  procs : List ProcDict
  net : NetEnv
  fs : String → Option Nat
  screenshot : Option (List Nat)
  copyOk : String → Bool
  machine : String
  timestamp : String

/-- The archive-writing tail of `acquire_volatile`
(base_system.py lines 211-247) given the selected processes and the
network log: the screenshot entry (written only when the grabbed bytes
are truthy), the two json tables, `netstat.log` only when the network
log is nonempty, then the open-file copies.  The guard
`if self.dump_loaded_files:` on line 235 is a bound method, always
truthy, so the copy loop always runs (over an empty list when
`include_open` was false). -/
def buildEntries (st : SystemState) (env : AcquireEnv) (procsel : List ProcDict)
    (network_log : List String) : List Entry :=
  let dumped := if st.include_open then dump_loaded_files procsel env.fs else []
  let screenshot := if screenshotGuard st then env.screenshot else none
  (if truthyBytes screenshot then [Entry.screenshotPng env.machine env.timestamp] else []) ++
  [Entry.processesJson, Entry.openFilesJson] ++
  (if network_log.isEmpty then [] else [Entry.netstatLog]) ++
  (copiedFiles env.fs env.copyOk dumped).map Entry.fileCopy

/-- `BaseSystem.acquire_volatile` (base_system.py lines 203-249):
collect the process inventory (line 209, via `get_processes_dict` —
a `NoSuchProcess` for a truthy pid selector propagates), the network
log (line 210 — a `NoSuchProcess` during name labelling propagates),
then write the archive.  An uncaught exception aborts before the
archive file is created. -/
def acquire_volatile (st : SystemState) (env : AcquireEnv) : Except Unit (List Entry) :=
  match get_processes_dict st.process_name st.process_id env.procs with
  | Except.error u => Except.error u
  | Except.ok procsel =>
    match get_network env.net with
    | Except.error u => Except.error u
    | Except.ok network_log => Except.ok (buildEntries st env procsel network_log)

/-- How a run of `BaseSystem.__init__` can fail: the explicit
`ValueError` of the selector validation (line 59), or an uncaught
collector exception escaping `acquire_volatile`. -/
inductive InitError
  | validation
  | collector
deriving DecidableEq

/-- `BaseSystem.__init__` (base_system.py lines 40-60): the
mutual-exclusion validation runs BEFORE `acquire_volatile`, so a
validation failure happens before any collector executes and before
any file is created. -/
def run_init (p : InitParams) (env : AcquireEnv) : Except InitError (List Entry) :=
  if init_validation_fails p.process_name p.process_id then Except.error InitError.validation
  else
    match acquire_volatile (initState p) env with
    | Except.error _ => Except.error InitError.collector
    | Except.ok es => Except.ok es

/-- Statement-side helper: a maps line either fails the regex or its
two parsed addresses satisfy `start < end`.  Used to state the
amended C1 side condition decidably. -/
def entryBounded (l : String) : Bool :=
  match lineMatch l with
  | some (s, e, _) => decide (s < e)
  | none => true

/-! ## Helper lemmas -/

/-- Every pair in a successful `parseLines` result is in the
accumulator or comes from a line that matched with the readable
flag. -/
theorem parseLines_sound (lines : List String) :
    ∀ (acc res : List (Nat × Nat)), parseLines lines acc = Except.ok res →
      ∀ p ∈ res, p ∈ acc ∨ ∃ l ∈ lines, lineMatch l = some (p.1, p.2, true) := by
  induction lines with
  | nil =>
    intro acc res h p hp
    simp only [parseLines, Except.ok.injEq] at h
    subst h
    exact Or.inl hp
  | cons l ls ih =>
    intro acc res h p hp
    cases hlm : lineMatch l with
    | none => simp [parseLines, hlm] at h
    | some t =>
      obtain ⟨s, e, b⟩ := t
      simp only [parseLines, hlm] at h
      cases b with
      | false =>
        simp only [if_false, Bool.false_eq_true, if_neg] at h
        rcases ih acc res (by simpa using h) p hp with h0 | ⟨l2, hl2, hm2⟩
        · exact Or.inl h0
        · exact Or.inr ⟨l2, List.mem_cons_of_mem _ hl2, hm2⟩
      | true =>
        simp only [if_true] at h
        rcases ih (acc ++ [(s, e)]) res (by simpa using h) p hp with h0 | ⟨l2, hl2, hm2⟩
        · rcases List.mem_append.mp h0 with ha | hb
          · exact Or.inl ha
          · refine Or.inr ⟨l, List.mem_cons_self _ _, ?_⟩
            have hpe : p = (s, e) := by simpa using hb
            subst hpe
            exact hlm
        · exact Or.inr ⟨l2, List.mem_cons_of_mem _ hl2, hm2⟩

/-- `dump_regions` succeeds whenever every region is well-ordered. -/
theorem dump_regions_total (read : Nat → Nat → Option (List Nat)) :
    ∀ (maps : List (Nat × Nat)), (∀ q ∈ maps, q.1 ≤ q.2) →
      ∃ a, dump_regions read maps = Except.ok a := by
  intro maps
  induction maps with
  | nil => exact fun _ => ⟨([], []), rfl⟩
  | cons m ms ih =>
    intro h
    obtain ⟨s, e⟩ := m
    have hse : s ≤ e := h (s, e) (List.mem_cons_self _ _)
    obtain ⟨a, ha⟩ := ih (fun q hq => h q (List.mem_cons_of_mem _ hq))
    obtain ⟨as_, sink⟩ := a
    refine ⟨((s, e - s) :: as_,
      (match read s (e - s) with
        | some bs => if bs.isEmpty then [] else bs
        | none => []) ++ sink), ?_⟩
    simp only [dump_regions, if_neg (Nat.not_lt.mpr hse), ha]

/-- The attempted `(start, length)` list of `dump_regions` does not
depend on the read oracle. -/
theorem dump_regions_attempts (r1 r2 : Nat → Nat → Option (List Nat))
    (maps : List (Nat × Nat)) :
    Except.map Prod.fst (dump_regions r1 maps) =
      Except.map Prod.fst (dump_regions r2 maps) := by
  induction maps with
  | nil => rfl
  | cons m ms ih =>
    obtain ⟨s, e⟩ := m
    by_cases hse : e < s
    · simp [dump_regions, hse]
    · simp only [dump_regions, if_neg hse]
      cases h1 : dump_regions r1 ms with
      | error u =>
        cases h2 : dump_regions r2 ms with
        | error v => rfl
        | ok b =>
          rw [h1, h2] at ih
          simp [Except.map] at ih
      | ok a =>
        cases h2 : dump_regions r2 ms with
        | error v =>
          rw [h1, h2] at ih
          simp [Except.map] at ih
        | ok b =>
          obtain ⟨as1, sink1⟩ := a
          obtain ⟨as2, sink2⟩ := b
          rw [h1, h2] at ih
          simp only [Except.map] at ih ⊢
          simp only [Except.ok.injEq] at ih ⊢
          simpa using ih

/-- A successful `dump_regions` run attempted exactly one read per
region. -/
theorem dump_regions_len (read : Nat → Nat → Option (List Nat)) :
    ∀ (maps : List (Nat × Nat)) a, dump_regions read maps = Except.ok a →
      a.1.length = maps.length := by
  intro maps
  induction maps with
  | nil =>
    intro a ha
    simp only [dump_regions, Except.ok.injEq] at ha
    subst ha
    rfl
  | cons m ms ih =>
    intro a ha
    obtain ⟨s, e⟩ := m
    by_cases hse : e < s
    · simp [dump_regions, hse] at ha
    · simp only [dump_regions, if_neg hse] at ha
      cases h1 : dump_regions read ms with
      | error u => rw [h1] at ha; simp at ha
      | ok b =>
        obtain ⟨bs, sink⟩ := b
        rw [h1] at ha
        simp only [Except.ok.injEq] at ha
        subst ha
        simpa using ih (bs, sink) h1

/-- `netLines` succeeds when every two-endpoint connection has a
resolvable process name. -/
theorem netLines_ok (nameOf : Nat → Option String) (date : String)
    (cs : List NetConn)
    (h : ∀ c ∈ cs, c.laddr.isSome = true → c.raddr.isSome = true →
      (nameOf c.pid).isSome = true) :
    ∃ ls, netLines nameOf date cs = Except.ok ls := by
  induction cs with
  | nil => exact ⟨[], rfl⟩
  | cons c cs ih =>
    obtain ⟨ls, hls⟩ := ih (fun x hx => h x (List.mem_cons_of_mem _ hx))
    cases hla : c.laddr with
    | none => exact ⟨ls, by simp [netLines, hla, hls]⟩
    | some la =>
      cases hra : c.raddr with
      | none => exact ⟨ls, by simp [netLines, hla, hra, hls]⟩
      | some ra =>
        have hn := h c (List.mem_cons_self _ _) (by simp [hla]) (by simp [hra])
        cases hnm : nameOf c.pid with
        | none => rw [hnm] at hn; simp at hn
        | some nm =>
          exact ⟨fmtLine date la.ip la.port ra.ip ra.port nm :: ls,
            by simp [netLines, hla, hra, hnm, hls]⟩

/-- `get_network` succeeds when the enumeration is denied or every
two-endpoint connection has a resolvable name. -/
theorem get_network_ok (env : NetEnv)
    (h : ∀ cs, env.connections = Except.ok cs →
      ∀ c ∈ cs, c.laddr.isSome = true → c.raddr.isSome = true →
        (env.nameOf c.pid).isSome = true) :
    ∃ ls, get_network env = Except.ok ls := by
  unfold get_network
  cases hc : env.connections with
  | error u => exact ⟨[], rfl⟩
  | ok cs =>
    obtain ⟨ls, hls⟩ := netLines_ok env.nameOf env.date cs (h cs hc)
    exact ⟨ls, hls⟩

/-! ## Claims -/

/-- C1 counterexample: the record whose single line is the readable
entry `2-1 r` parses successfully to the retained range `(2, 1)`,
and `2 < 1` fails — `parse_mem_map` never checks `start < end`. -/
theorem c1_counterexample :
    parse_mem_map (MapsFile.content ["2-1 r"]) = Except.ok [(2, 1)] ∧ ¬ (2 < 1) := by
  exact ⟨rfl, by decide⟩

/-- C1 (amended): every range retained by `parse_mem_map` comes from a
line whose permission flag marks it readable; and `start < end` holds
for every retained range provided every matched line of the record
already satisfies `start < end` (the parser itself never checks it). -/
theorem c1_readable_regions (lines : List String) (res : List (Nat × Nat))
    (h : parse_mem_map (MapsFile.content lines) = Except.ok res) :
    (∀ p ∈ res, ∃ l ∈ lines, lineMatch l = some (p.1, p.2, true)) ∧
    ((∀ l ∈ lines, entryBounded l = true) → ∀ p ∈ res, p.1 < p.2) := by
  have hs := parseLines_sound lines [] res h
  constructor
  · intro p hp
    rcases hs p hp with h0 | h1
    · simp at h0
    · exact h1
  · intro hall p hp
    rcases hs p hp with h0 | ⟨l, hl, hm⟩
    · simp at h0
    · have hb := hall l hl
      unfold entryBounded at hb
      rw [hm] at hb
      exact of_decide_eq_true hb

/-- C1 witness: on a record with one readable and one non-readable
entry, the single retained range is readable-tagged and satisfies
`start < end`. -/
theorem c1_witness :
    parse_mem_map (MapsFile.content ["1000-2000 r-xp a", "3000-4000 ---p a"]) =
      Except.ok [(4096, 8192)] ∧
    (∃ l ∈ ["1000-2000 r-xp a", "3000-4000 ---p a"],
      lineMatch l = some (4096, 8192, true)) ∧
    4096 < 8192 := by
  have h : parse_mem_map (MapsFile.content ["1000-2000 r-xp a", "3000-4000 ---p a"]) =
      Except.ok [(4096, 8192)] := by rfl
  refine ⟨h, ?_, ?_⟩
  · exact (c1_readable_regions _ _ h).1 (4096, 8192) (by decide)
  · exact (c1_readable_regions _ _ h).2 (by decide) (4096, 8192) (by decide)

/-- C2 counterexample: a process whose maps record yields the single
readable region `[0x1000, 0x2000)` and whose every region read fails
(the oracle is constantly `none`, so zero bytes are produced) still
gets a `process_dumps/bash_7.mem` archive entry — with an empty
payload — because `zip_file.write` on linux.py line 112 is not guarded
by the temp file being nonempty. -/
theorem c2_counterexample :
    dump_process (fun _ _ => none) 7 "bash" (MapsFile.content ["1000-2000 r-xp"]) =
      Except.ok (some ("process_dumps/bash_7.mem", [])) := by
  rfl

/-- C2 (amended): for a process whose maps record parses with every
region well-ordered, the `process_dumps/<name>_<pid>.mem` archive
entry is committed if and only if the region list is nonempty —
independently of whether any region read produced bytes. -/
theorem c2_committed_iff_maps_nonempty (read : Nat → Nat → Option (List Nat))
    (pid : Nat) (pname : String) (mf : MapsFile) (maps : List (Nat × Nat))
    (hp : parse_mem_map mf = Except.ok maps) (hb : ∀ q ∈ maps, q.1 ≤ q.2) :
    (∃ payload, dump_process read pid pname mf =
      Except.ok (some ("process_dumps/" ++ pname ++ "_" ++ Nat.repr pid ++ ".mem", payload)))
      ↔ maps ≠ [] := by
  unfold dump_process
  rw [hp]
  cases maps with
  | nil => simp
  | cons m ms =>
    obtain ⟨a, ha⟩ := dump_regions_total read (m :: ms) hb
    obtain ⟨as_, sink⟩ := a
    simp [ha]

/-- C2 witness: a two-region record with one successful read commits
the deterministically named entry. -/
theorem c2_witness :
    ∃ payload, dump_process (fun a _ => if a = 4096 then some [1, 2] else none) 3 "x"
        (MapsFile.content ["1000-2000 r-xp a", "3000-3500 rw-p a"]) =
      Except.ok (some ("process_dumps/x_3.mem", payload)) :=
  (c2_committed_iff_maps_nonempty _ 3 "x" _ [(4096, 8192), (12288, 13568)]
    (by rfl) (by decide)).mpr (by decide)

/-- C3: a failed region read is reported as `none` by `read_bytes`
(never an exception), and the list of attempted `(start, length)`
reads of the per-process dump loop is the same whatever the read
outcomes are — in particular a failure for one region never decreases
the number of subsequently attempted ranges: a successful run always
attempts exactly one read per region. -/
theorem c3_read_failure_keeps_attempts (sys1 sys2 : Nat → Nat → Nat → Int)
    (mem1 mem2 : Nat → Nat → Nat → List Nat) (pid : Nat) (maps : List (Nat × Nat)) :
    (∀ addr len, sys1 pid addr len = -1 → read_bytes sys1 mem1 pid addr len = none) ∧
    Except.map Prod.fst (dump_regions (read_bytes sys1 mem1 pid) maps) =
      Except.map Prod.fst (dump_regions (read_bytes sys2 mem2 pid) maps) ∧
    (∀ a, dump_regions (read_bytes sys1 mem1 pid) maps = Except.ok a →
      a.1.length = maps.length) := by
  refine ⟨?_, dump_regions_attempts _ _ maps, ?_⟩
  · intro addr len h
    simp [read_bytes, h]
  · intro a ha
    exact dump_regions_len _ maps a ha

/-- C3 witness: with a syscall that fails every read, the read is
reported as `none`, and the attempted list over two regions still has
both regions, matching the run where every read succeeds. -/
theorem c3_witness :
    read_bytes (fun _ _ _ => -1) (fun _ _ _ => []) 5 0 4 = none ∧
    Except.map Prod.fst
        (dump_regions (read_bytes (fun _ _ _ => -1) (fun _ _ _ => []) 5) [(0, 4), (4, 8)]) =
      Except.map Prod.fst
        (dump_regions (read_bytes (fun _ _ _ => 0) (fun _ _ _ => [1]) 5) [(0, 4), (4, 8)]) ∧
    (([(0, 4), (4, 4)], ([] : List Nat)) : List (Nat × Nat) × List Nat).1.length =
      ([((0 : Nat), (4 : Nat)), (4, 8)]).length := by
  refine ⟨?_, ?_, ?_⟩
  · exact (c3_read_failure_keeps_attempts (fun _ _ _ => -1) (fun _ _ _ => -1)
      (fun _ _ _ => []) (fun _ _ _ => []) 5 []).1 0 4 rfl
  · exact (c3_read_failure_keeps_attempts (fun _ _ _ => -1) (fun _ _ _ => 0)
      (fun _ _ _ => []) (fun _ _ _ => [1]) 5 [(0, 4), (4, 8)]).2.1
  · exact (c3_read_failure_keeps_attempts (fun _ _ _ => -1) (fun _ _ _ => -1)
      (fun _ _ _ => []) (fun _ _ _ => []) 5 [(0, 4), (4, 8)]).2.2
      ([(0, 4), (4, 4)], []) (by rfl)

/-- C4 (code bug): a maps line the line grammar does not match is NOT
treated as absent — `re.match` returns `None`, the unguarded
`line_groups.group(3)` raises `AttributeError`, and no `except` clause
of `parse_mem_map` catches it, so the function does not return
normally.  An absent record, by contrast, does return normally with an
empty list. -/
theorem c4_unparseable_line_crashes :
    parse_mem_map (MapsFile.content ["not a maps line"]) = Except.error () ∧
    parse_mem_map MapsFile.absent = Except.ok [] := by
  exact ⟨rfl, rfl⟩

/-- C5 (code bug): the `take_screenshot` configuration flag is
ignored.  `__init__` never stores the parameter, so
`if self.take_screenshot:` resolves to the always-truthy bound method
and capture is attempted on every run; with the flag disabled and a
successful capture, the `<hostname>-<timestamp>.png` entry is still
written to the archive. -/
theorem c5_flag_ignored :
    (∀ p : InitParams, screenshotGuard (initState p) = true) ∧
    (InitParams.mk none none false true true false).take_screenshot = false ∧
    acquire_volatile (initState (InitParams.mk none none false true true false))
        (AcquireEnv.mk [] (NetEnv.mk (Except.error ()) (fun _ => none) "d")
          (fun _ => none) (some [137]) (fun _ => true) "host" "123") =
      Except.ok [Entry.screenshotPng "host" "123", Entry.processesJson,
        Entry.openFilesJson] := by
  exact ⟨fun _ => rfl, rfl, rfl⟩

/-- C6 counterexample: a process set with one open file of size
10,000,001 bytes: the file path appears in the `dumped_files` list —
the rows of `open_files.json` — even though its size exceeds the
10 MB ceiling, because the size ceiling is only checked in the copy
loop. -/
theorem c6_counterexample :
    dump_loaded_files [ProcDict.mk 1 "proc" ["/var/big"] [] ""]
        (fun q => if q = "/var/big" then some 10000001 else none) = ["/var/big"] ∧
    MAX_OPEN_FILE_SIZE < 10000001 := by
  exact ⟨rfl, by decide⟩

/-- C6 (amended): the `dumped_files` list (the rows of
`open_files.json`) contains no duplicate paths and no path of a
zero-size or nonexistent file; the 10,000,000-byte ceiling applies
only to the copy step — every copied file is within the ceiling, and a
listed file of size exactly 10,000,000 bytes whose copy is permitted
is copied — while oversized paths still appear in the list. -/
theorem c6_list_and_copy_bounds (procs : List ProcDict) (fs : String → Option Nat)
    (copyOk : String → Bool) (p : String) :
    (dump_loaded_files procs fs).Nodup ∧
    (p ∈ dump_loaded_files procs fs → ∃ n, fs p = some n ∧ 0 < n) ∧
    (p ∈ copiedFiles fs copyOk (dump_loaded_files procs fs) →
      ∃ n, fs p = some n ∧ n ≤ MAX_OPEN_FILE_SIZE) ∧
    (p ∈ dump_loaded_files procs fs → fs p = some MAX_OPEN_FILE_SIZE →
      copyOk p = true → p ∈ copiedFiles fs copyOk (dump_loaded_files procs fs)) := by
  refine ⟨?_, ?_, ?_, ?_⟩
  · exact (List.nodup_dedup _).filter _
  · intro hp
    rw [dump_loaded_files, List.mem_filter] at hp
    have h2 := hp.2
    rw [Bool.and_eq_true] at h2
    have hs := h2.2
    unfold sizeOk at hs
    cases hf : fs p with
    | none => rw [hf] at hs; simp at hs
    | some n =>
      rw [hf] at hs
      simp only [decide_eq_true_eq] at hs
      exact ⟨n, rfl, Nat.pos_of_ne_zero hs⟩
  · intro hp
    rw [copiedFiles, List.mem_filter] at hp
    have h2 := hp.2
    cases hf : fs p with
    | none => rw [hf] at h2; simp at h2
    | some n =>
      rw [hf] at h2
      by_cases hn : MAX_OPEN_FILE_SIZE < n
      · simp [hn] at h2
      · exact ⟨n, rfl, Nat.not_lt.mp hn⟩
  · intro hp hf hc
    rw [copiedFiles, List.mem_filter]
    refine ⟨hp, ?_⟩
    rw [hf]
    simp [hc]

/-- C6 witness: a single open file of size exactly 10,000,000 bytes is
listed without duplicates and is copied. -/
theorem c6_witness :
    (dump_loaded_files [ProcDict.mk 1 "proc" ["/f1"] [] ""]
      (fun q => if q = "/f1" then some 10000000 else none)).Nodup ∧
    "/f1" ∈ copiedFiles (fun q => if q = "/f1" then some 10000000 else none)
      (fun _ => true)
      (dump_loaded_files [ProcDict.mk 1 "proc" ["/f1"] [] ""]
        (fun q => if q = "/f1" then some 10000000 else none)) := by
  have h := c6_list_and_copy_bounds [ProcDict.mk 1 "proc" ["/f1"] [] ""]
    (fun q => if q = "/f1" then some 10000000 else none) (fun _ => true) "/f1"
  exact ⟨h.1, h.2.2.2 (by decide) rfl rfl⟩

/-- C7 counterexample: a run whose options pass validation, with one
network connection that has both endpoints but whose owning process
has exited before the name lookup (`psutil.Process(conn.pid)` raises
`NoSuchProcess`): the exception propagates out of `get_network` and
aborts the run before the archive file is created. -/
theorem c7_counterexample :
    init_validation_fails none none = false ∧
    run_init (InitParams.mk none none true true true false)
        (AcquireEnv.mk []
          (NetEnv.mk
            (Except.ok [NetConn.mk (some (Endpoint.mk "1.1.1.1" 80))
              (some (Endpoint.mk "2.2.2.2" 443)) 42])
            (fun _ => none) "d")
          (fun _ => none) none (fun _ => true) "h" "t") =
      Except.error InitError.collector := by
  exact ⟨rfl, rfl⟩

/-- C7 (amended): a run whose options pass validation, whose process
selection resolves, and whose every two-endpoint network connection
still has a resolvable owning-process name, produces the archive —
whatever the other collector outcomes (enumeration access-denied,
screenshot failure, missing, oversized or permission-denied open
files) are.  A `NoSuchProcess` during connection name lookup, however,
is unguarded and aborts the run (see the counterexample). -/
theorem c7_graceful_archive (p : InitParams) (env : AcquireEnv) (sel : List ProcDict)
    (hv : init_validation_fails p.process_name p.process_id = false)
    (hsel : get_processes_dict p.process_name p.process_id env.procs = Except.ok sel)
    (hnet : ∀ cs, env.net.connections = Except.ok cs →
      ∀ c ∈ cs, c.laddr.isSome = true → c.raddr.isSome = true →
        (env.net.nameOf c.pid).isSome = true) :
    ∃ es, run_init p env = Except.ok es := by
  unfold run_init
  rw [hv]
  simp only [Bool.false_eq_true, if_false]
  unfold acquire_volatile
  have hsel2 : get_processes_dict (initState p).process_name (initState p).process_id
      env.procs = Except.ok sel := hsel
  rw [hsel2]
  obtain ⟨ls, hls⟩ := get_network_ok env.net hnet
  rw [hls]
  exact ⟨_, rfl⟩

/-- C7 witness: a validation-passing run whose network enumeration is
access-denied still produces the archive. -/
theorem c7_witness :
    ∃ es, run_init (InitParams.mk (some "bash") none true true true false)
      (AcquireEnv.mk [] (NetEnv.mk (Except.error ()) (fun _ => none) "d")
        (fun _ => none) none (fun _ => true) "h" "t") = Except.ok es := by
  refine c7_graceful_archive _ _ [] rfl rfl ?_
  intro cs hcs
  simp at hcs

/-- C8: the run fails with the `ValueError` of the selector validation
exactly when both `process_name` and `process_id` are supplied with
truthy values; either alone, or neither, never produces the validation
error.  The check sits before `acquire_volatile` in `__init__`, so a
validation failure happens before any collector runs and before any
file is created — the theorem holds for every environment. -/
theorem c8_mutual_exclusion (p : InitParams) (env : AcquireEnv) :
    run_init p env = Except.error InitError.validation ↔
      (truthyStr p.process_name = true ∧ truthyNat p.process_id = true) := by
  unfold run_init init_validation_fails
  cases hn : truthyStr p.process_name <;> cases hi : truthyNat p.process_id <;> simp
  all_goals cases h : acquire_volatile (initState p) env <;> simp [h]

/-- C10: a `process_id` of 0 or a `process_name` of the empty string
is falsy and therefore behaves as an absent selector: alone it returns
every process, a zero `process_id` next to a `process_name` selects
exactly as the name alone does, and a `process_name` combined with
`process_id = 0` never trips the mutual-exclusion validation. -/
theorem c10_falsy_selectors (procs : List ProcDict) (nm : String) :
    get_processes_dict none (some 0) procs = Except.ok procs ∧
    get_processes_dict (some "") none procs = Except.ok procs ∧
    get_processes_dict (some nm) (some 0) procs =
      get_processes_dict (some nm) none procs ∧
    init_validation_fails (some nm) (some 0) = false := by
  refine ⟨rfl, rfl, rfl, ?_⟩
  simp [init_validation_fails, truthyNat]

/-- C9: when `psutil.net_connections()` raises `AccessDenied`,
`get_network` catches it and returns the empty list; the run (here
with no process selector) still assembles the archive, and the
`netstat.log` entry is omitted entirely because the guard
`if self.network_log:` sees an empty list. -/
theorem c9_network_denied (env : AcquireEnv) (st : SystemState)
    (hc : env.net.connections = Except.error ())
    (hn : st.process_name = none) (hi : st.process_id = none) :
    get_network env.net = Except.ok [] ∧
    ∃ es, acquire_volatile st env = Except.ok es ∧ Entry.netstatLog ∉ es := by
  have hg : get_network env.net = Except.ok [] := by
    unfold get_network
    rw [hc]
    rfl
  refine ⟨hg, ?_⟩
  unfold acquire_volatile
  rw [hn, hi]
  have hsel : get_processes_dict none none env.procs = Except.ok env.procs := rfl
  rw [hsel, hg]
  refine ⟨_, rfl, ?_⟩
  unfold buildEntries
  simp only [List.mem_append, List.mem_map, List.mem_cons, List.not_mem_nil,
    List.isEmpty_nil, if_true]
  intro hmem
  rcases hmem with (h1 | h2) | h3
  · rcases h1 with h1 | h2
    · split at h1 <;> simp_all
    · simp_all
  · simp_all
  · obtain ⟨q, _, hq⟩ := h3
    simp at hq

/-- C9 witness: a concrete denied-enumeration environment. -/
theorem c9_witness :
    get_network (NetEnv.mk (Except.error ()) (fun _ => none) "d") = Except.ok [] ∧
    ∃ es, acquire_volatile (SystemState.mk none none false false true)
        (AcquireEnv.mk [] (NetEnv.mk (Except.error ()) (fun _ => none) "d")
          (fun _ => none) none (fun _ => true) "h" "t") = Except.ok es ∧
      Entry.netstatLog ∉ es :=
  c9_network_denied
    (AcquireEnv.mk [] (NetEnv.mk (Except.error ()) (fun _ => none) "d")
      (fun _ => none) none (fun _ => true) "h" "t")
    (SystemState.mk none none false false true) rfl rfl rfl
